import Mathlib

/-!
A verification development for the data-collection layer of the
Ethiopian e-learning course scraper (`webscrapp.py`): the normalized
course record, the CSV sink, the retrying fetch primitive, the adapter
registry and the run controller, shallowly embedded in Lean.

Conventions of the embedding:
  * Python strings are Lean `String`s; all computations on them go through
    `String.data : List Char`, so that every definition evaluates by kernel
    reduction (code points match Python's `str` semantics).
  * A fallible Python call is an `Except String`/`Option` value; a raised
    exception is the `.error`/`none` branch.
  * The HTTP transport and the HTML parser are external collaborators; they
    are abstracted as oracles (`Transport`, `Fetcher`) and the embedded code
    is a pure function of the oracle.
-/

namespace Scrapper

/-! ## Basic string helpers (code-point level, kernel-computable) -/

/-- Whether `s` is the empty Python string, decided on the code points. -/
def strIsEmpty (s : String) : Bool :=
  match s.data with
  | [] => true
  | _ :: _ => false

/-- Python `s.startswith("/")`: the first code point is a slash. -/
def startsWithSlash (s : String) : Bool :=
  match s.data with
  | '/' :: _ => true
  | _ => false

/-- Python `sub in s`: substring containment, as contiguous infix of the
code-point sequence. -/
def containsSub (s sub : String) : Bool :=
  decide (sub.data <:+: s.data)

/-- ASCII lowercasing of every code point, modelling the effect of matching
with `re.I` on the (ASCII) keyword alternations used by the adapters. -/
def lowerStr (s : String) : String :=
  ⟨s.data.map Char.toLower⟩

/-- Python `re.search("w1|w2|...", s, re.I)` for an alternation of literal
words: some word occurs in `s` case-insensitively. -/
def kwWords (ws : List String) (s : String) : Bool :=
  ws.any fun w => containsSub (lowerStr s) (lowerStr w)

/-- Lexicographic (code-point) comparison of char lists: Python's `<=` on
`str`, restricted to the lists backing the strings. -/
def lexLe : List Char → List Char → Bool
  | [], _ => true
  | _ :: _, [] => false
  | a :: as, b :: bs =>
    if a < b then true
    else if b < a then false
    else lexLe as bs

/-- Python string `<=` order, used by `sorted` on hrefs. -/
def strle (s t : String) : Prop := lexLe s.data t.data = true

instance : DecidableRel strle := fun s t =>
  inferInstanceAs (Decidable (lexLe s.data t.data = true))

theorem lexLe_total (a b : List Char) : lexLe a b = true ∨ lexLe b a = true := by
  induction a generalizing b with
  | nil => left; rfl
  | cons x xs ih =>
    cases b with
    | nil => right; rfl
    | cons y ys =>
      simp only [lexLe]
      by_cases hxy : x < y
      · left; rw [if_pos hxy]
      · by_cases hyx : y < x
        · right; rw [if_pos hyx]
        · have he : x = y := le_antisymm (not_lt.mp hyx) (not_lt.mp hxy)
          subst he
          rcases ih ys with h2 | h2
          · left; rw [if_neg hxy, if_neg hyx]; exact h2
          · right; rw [if_neg hxy, if_neg hyx]; exact h2

theorem lexLe_trans {a b c : List Char} (h1 : lexLe a b = true)
    (h2 : lexLe b c = true) : lexLe a c = true := by
  induction a generalizing b c with
  | nil => rfl
  | cons x xs ih =>
    cases b with
    | nil => exact absurd h1 (by simp [lexLe])
    | cons y ys =>
      cases c with
      | nil => exact absurd h2 (by simp [lexLe])
      | cons z zs =>
        simp only [lexLe] at h1 h2 ⊢
        by_cases hxy : x < y
        · by_cases hyz : y < z
          · rw [if_pos (lt_trans hxy hyz)]
          · by_cases hzy : z < y
            · rw [if_neg hyz, if_pos hzy] at h2
              exact absurd h2 (by simp)
            · have hyz' : y = z := le_antisymm (not_lt.mp hzy) (not_lt.mp hyz)
              subst hyz'
              rw [if_pos hxy]
        · by_cases hyx : y < x
          · rw [if_neg hxy, if_pos hyx] at h1
            exact absurd h1 (by simp)
          · have hxy' : x = y := le_antisymm (not_lt.mp hyx) (not_lt.mp hxy)
            subst hxy'
            rw [if_neg hxy, if_neg hyx] at h1
            by_cases hxz : x < z
            · rw [if_pos hxz]
            · by_cases hzx : z < x
              · rw [if_neg hxz, if_pos hzx] at h2
                exact absurd h2 (by simp)
              · rw [if_neg hxz, if_neg hzx] at h2 ⊢
                exact ih h1 h2

instance : IsTotal String strle := ⟨fun s t => lexLe_total s.data t.data⟩

instance : IsTrans String strle := ⟨fun _ _ _ => lexLe_trans⟩

theorem strle_antisymm {s t : String} (h1 : strle s t) (h2 : strle t s) : s = t := by
  cases s with
  | mk a =>
    cases t with
    | mk b =>
      simp only [strle] at h1 h2
      congr 1
      induction a generalizing b with
      | nil =>
        cases b with
        | nil => rfl
        | cons y ys => exact absurd h2 (by simp [lexLe])
      | cons x xs ih =>
        cases b with
        | nil => exact absurd h1 (by simp [lexLe])
        | cons y ys =>
          simp only [lexLe] at h1 h2
          by_cases hxy : x < y
          · rw [if_neg (lt_asymm hxy), if_pos hxy] at h2
            exact absurd h2 (by simp)
          · by_cases hyx : y < x
            · rw [if_neg hxy, if_pos hyx] at h1
              exact absurd h1 (by simp)
            · have hxy' : x = y := le_antisymm (not_lt.mp hyx) (not_lt.mp hxy)
              subst hxy'
              rw [if_neg hxy, if_neg hyx] at h1 h2
              rw [ih _ h1 h2]

theorem strIsEmpty_false_iff (s : String) : strIsEmpty s = false ↔ s ≠ "" := by
  cases s with
  | mk d =>
    cases d with
    | nil =>
      simp only [strIsEmpty]
      constructor
      · intro h; exact Bool.noConfusion h
      · intro h; exact absurd rfl h
    | cons c cs =>
      simp only [strIsEmpty]
      constructor
      · intro _ h
        exact List.noConfusion (congrArg String.data h)
      · intro _; trivial

theorem append_ne_empty_of_right {s t : String} (h : t ≠ "") : s ++ t ≠ "" := by
  intro hc
  apply h
  have hd : (s ++ t).data = ("" : String).data := by rw [hc]
  rw [String.data_append] at hd
  have := List.append_eq_nil.mp hd
  cases t with
  | mk d => cases this.2; rfl

/-! ## Record model

`Course` from `webscrapp.py`: three required fields and eleven optional
(`None`-able) ones, the dataclass defaults all `None`. Optional ints are
modelled as `Option Int` (Python `int`), booleans as `Option Bool`. -/

structure Course where
  course_id : String
  course_title : String
  url : String
  is_paid : Option Bool := none
  price : Option String := none
  num_subscribers : Option Int := none
  num_reviews : Option Int := none
  num_lectures : Option Int := none
  level : Option String := none
  content_duration : Option String := none
  published_timestamp : Option String := none
  subject : Option String := none
  provider : Option String := none
  language : Option String := none
deriving DecidableEq, Repr

/-- The CSV column list `FIELDS` of `webscrapp.py`, in its exact order. -/
def FIELDS : List String :=
  ["course_id", "course_title", "url", "is_paid", "price", "num_subscribers",
   "num_reviews", "num_lectures", "level", "content_duration",
   "published_timestamp", "subject", "provider", "language"]

/-- How Python's `csv` writer renders an optional string cell: `None` becomes
the empty string, a string is written as-is. -/
def optStrCell : Option String → String
  | none => ""
  | some s => s

/-- `str()` of an optional Python bool as the csv writer renders it. -/
def optBoolCell : Option Bool → String
  | none => ""
  | some true => "True"
  | some false => "False"

/-- `str()` of an optional Python int as the csv writer renders it. -/
def optIntCell : Option Int → String
  | none => ""
  | some i => toString i

/-- The logical CSV row of one `Course`: `{k: getattr(c, k) for k in FIELDS}`
rendered cell by cell in the order of `FIELDS`. -/
def renderCourse (c : Course) : List String :=
  [c.course_id, c.course_title, c.url, optBoolCell c.is_paid, optStrCell c.price,
   optIntCell c.num_subscribers, optIntCell c.num_reviews, optIntCell c.num_lectures,
   optStrCell c.level, optStrCell c.content_duration,
   optStrCell c.published_timestamp, optStrCell c.subject,
   optStrCell c.provider, optStrCell c.language]

/-! ## CSV serialization (the Sink's tabular format)

Python's `csv.DictWriter` with the default dialect: delimiter `,`,
quotechar `"`, QUOTE_MINIMAL (a cell is quoted iff it contains the
delimiter, the quote char or a line-terminator character), doubled quotes
as escape, and `\r\n` as the line terminator.  The matching reader is also
embedded so the round trip can be stated. Everything works on `List Char`. -/

/-- A character that ends an unquoted cell: the delimiter or a
line-terminator character. -/
def isStopChar (c : Char) : Bool := c = ',' || c = '\r' || c = '\n'

/-- QUOTE_MINIMAL: the cell must be quoted. -/
def needsQuote (l : List Char) : Bool :=
  l.any fun c => c = ',' || c = '"' || c = '\r' || c = '\n'

/-- Double every quote character (the csv escape inside a quoted cell). -/
def escapeQuotes : List Char → List Char
  | [] => []
  | c :: cs =>
    if c = '"' then '"' :: '"' :: escapeQuotes cs else c :: escapeQuotes cs

/-- One encoded cell, quoted exactly when QUOTE_MINIMAL requires it. -/
def encodeCell (l : List Char) : List Char :=
  if needsQuote l then '"' :: (escapeQuotes l ++ ['"']) else l

/-- One encoded line: cells joined by the delimiter (no terminator yet). -/
def encodeLine : List (List Char) → List Char
  | [] => []
  | c :: cs =>
    match cs with
    | [] => encodeCell c
    | _ :: _ => encodeCell c ++ ',' :: encodeLine cs

/-- The encoded file: every row followed by the `\r\n` terminator. -/
def encodeFile (rows : List (List (List Char))) : List Char :=
  rows.foldr (fun r acc => encodeLine r ++ '\r' :: '\n' :: acc) []

/-- Reader, quoted-cell state machine. `inCell = true` means the scanner is
inside the quoted text; `inCell = false` means the previous character was a
quote (which closes the cell unless doubled). `acc` is the text read so far.
`none` on an unterminated cell. -/
def pqAux : Bool → List Char → List Char → Option (List Char × List Char)
  | true, [], _ => none
  | true, c :: rest, acc =>
    if c = '"' then pqAux false rest acc
    else pqAux true rest (acc ++ [c])
  | false, [], acc => some (acc, [])
  | false, c :: rest, acc =>
    if c = '"' then pqAux true rest (acc ++ ['"'])
    else some (acc, c :: rest)

/-- Reader, unquoted-cell state: take up to (not including) the first stop
character. -/
def parseUnquoted : List Char → List Char × List Char
  | [] => ([], [])
  | c :: rest =>
    if isStopChar c then ([], c :: rest)
    else
      let p := parseUnquoted rest
      (c :: p.1, p.2)

/-- Reader: one cell, dispatching on a leading quote. -/
def parseOneCell (l : List Char) : Option (List Char × List Char) :=
  match l with
  | [] => some ([], [])
  | c :: rest =>
    if c = '"' then pqAux true rest []
    else some (parseUnquoted (c :: rest))

theorem pqAux_length : ∀ (l : List Char) (mode : Bool) (acc s r : List Char),
    pqAux mode l acc = some (s, r) → r.length ≤ l.length := by
  intro l
  induction l with
  | nil =>
    intro mode acc s r h
    cases mode with
    | true => exact Option.noConfusion h
    | false =>
      simp only [pqAux] at h
      cases h
      exact Nat.le_refl _
  | cons c cs ih =>
    intro mode acc s r h
    cases mode with
    | true =>
      simp only [pqAux] at h
      by_cases hc : c = '"'
      · rw [if_pos hc] at h
        exact Nat.le_succ_of_le (ih _ _ _ _ h)
      · rw [if_neg hc] at h
        exact Nat.le_succ_of_le (ih _ _ _ _ h)
    | false =>
      simp only [pqAux] at h
      by_cases hc : c = '"'
      · rw [if_pos hc] at h
        exact Nat.le_succ_of_le (ih _ _ _ _ h)
      · rw [if_neg hc] at h
        cases h
        exact Nat.le_refl _

theorem parseUnquoted_length : ∀ l, (parseUnquoted l).2.length ≤ l.length := by
  intro l
  induction l with
  | nil => simp [parseUnquoted]
  | cons c cs ih =>
    simp only [parseUnquoted]
    by_cases h : isStopChar c = true
    · rw [if_pos h]
    · rw [if_neg h]
      simp only [List.length_cons]
      omega

theorem parseOneCell_length : ∀ (l : List Char) (s r : List Char),
    parseOneCell l = some (s, r) → r.length ≤ l.length := by
  intro l s r h
  cases l with
  | nil =>
    simp only [parseOneCell] at h
    cases h
    exact Nat.le_refl _
  | cons c cs =>
    simp only [parseOneCell] at h
    by_cases hc : c = '"'
    · rw [if_pos hc] at h
      exact Nat.le_succ_of_le (pqAux_length _ _ _ _ _ h)
    · rw [if_neg hc] at h
      injection h with h2
      have := parseUnquoted_length (c :: cs)
      rw [h2] at this
      exact this

/-- Reader: the cells of one record, ended by the `\r\n` terminator; returns
the cells and the remaining input after the terminator. `none` on malformed
input or fuel exhaustion. The fuel only needs to cover the number of cells
of the record; one unit is spent per cell. -/
def parseCellsF : Nat → List Char → Option (List (List Char) × List Char)
  | 0, _ => none
  | fuel + 1, l =>
    match parseOneCell l with
    | none => none
    | some (cell, rest) =>
      match rest with
      | [] => none
      | c :: r2 =>
        if c = ',' then
          match parseCellsF fuel r2 with
          | none => none
          | some (cells, r3) => some (cell :: cells, r3)
        else if c = '\r' then
          match r2 with
          | [] => none
          | d :: r3 => if d = '\n' then some ([cell], r3) else none
        else none

/-- Reader at record level: `parseCellsF` with always-sufficient fuel (a
record holds at most one cell per input character, plus one). -/
def parseCells (l : List Char) : Option (List (List Char) × List Char) :=
  parseCellsF (l.length + 1) l

/-- Reader: all records of the file; `some []` at end of input. The fuel
only needs to cover the number of records; one unit is spent per record. -/
def parseRowsF : Nat → List Char → Option (List (List (List Char)))
  | _, [] => some []
  | 0, _ :: _ => none
  | fuel + 1, c :: cs =>
    match parseCells (c :: cs) with
    | none => none
    | some (row, rest) =>
      match parseRowsF fuel rest with
      | none => none
      | some rows => some (row :: rows)

/-- Reader at file level: `parseRowsF` with always-sufficient fuel (every
record consumes at least its two terminator characters). -/
def parseRows (l : List Char) : Option (List (List (List Char))) :=
  parseRowsF l.length l

theorem pqAux_escape : ∀ (s acc : List Char) (c' : Char) (r' : List Char),
    c' ≠ '"' →
    pqAux true (escapeQuotes s ++ '"' :: c' :: r') acc = some (acc ++ s, c' :: r') := by
  intro s
  induction s with
  | nil =>
    intro acc c' r' hc
    have h1 : escapeQuotes [] ++ '"' :: c' :: r' = '"' :: c' :: r' := by
      simp [escapeQuotes]
    rw [h1]
    simp [pqAux, hc]
  | cons c cs ih =>
    intro acc c' r' hc
    by_cases hq : c = '"'
    · subst hq
      have h1 : escapeQuotes ('"' :: cs) ++ '"' :: c' :: r'
          = '"' :: '"' :: (escapeQuotes cs ++ '"' :: c' :: r') := by
        simp [escapeQuotes]
      rw [h1]
      have h2 : pqAux true ('"' :: '"' :: (escapeQuotes cs ++ '"' :: c' :: r')) acc
          = pqAux true (escapeQuotes cs ++ '"' :: c' :: r') (acc ++ ['"']) := by
        simp [pqAux]
      rw [h2, ih _ _ _ hc]
      simp
    · have h1 : escapeQuotes (c :: cs) ++ '"' :: c' :: r'
          = c :: (escapeQuotes cs ++ '"' :: c' :: r') := by
        simp [escapeQuotes, hq]
      rw [h1]
      have h2 : pqAux true (c :: (escapeQuotes cs ++ '"' :: c' :: r')) acc
          = pqAux true (escapeQuotes cs ++ '"' :: c' :: r') (acc ++ [c]) := by
        simp [pqAux, hq]
      rw [h2, ih _ _ _ hc]
      simp

theorem parseUnquoted_clean : ∀ (s : List Char) (c' : Char) (r' : List Char),
    (∀ c ∈ s, isStopChar c = false) → isStopChar c' = true →
    parseUnquoted (s ++ c' :: r') = (s, c' :: r') := by
  intro s
  induction s with
  | nil =>
    intro c' r' _ hstop
    simp only [List.nil_append, parseUnquoted]
    rw [if_pos hstop]
  | cons c cs ih =>
    intro c' r' hclean hstop
    have hc : isStopChar c = false := hclean c (List.mem_cons_self c cs)
    simp only [List.cons_append, parseUnquoted, List.append_eq]
    rw [if_neg (by simp [hc])]
    have h3 := ih c' r' (fun x hx => hclean x (List.mem_cons_of_mem c hx)) hstop
    simp only [List.append_eq] at h3
    rw [h3]

theorem needsQuote_false_chars {l : List Char} (h : needsQuote l = false) :
    ∀ c ∈ l, c ≠ ',' ∧ c ≠ '"' ∧ c ≠ '\r' ∧ c ≠ '\n' := by
  intro c hc
  have h2 := List.any_eq_false.mp h c hc
  refine ⟨?_, ?_, ?_, ?_⟩ <;> intro he <;> subst he <;> simp at h2

theorem parseOneCell_encodeCell : ∀ (cell : List Char) (c' : Char) (r' : List Char),
    isStopChar c' = true →
    parseOneCell (encodeCell cell ++ c' :: r') = some (cell, c' :: r') := by
  intro cell c' r' hstop
  have hc'q : c' ≠ '"' := by
    intro hq
    subst hq
    simp [isStopChar] at hstop
  by_cases hq : needsQuote cell = true
  · simp only [encodeCell, if_pos hq]
    simp only [List.cons_append, List.append_assoc, List.singleton_append,
      List.nil_append, parseOneCell]
    simp [pqAux_escape cell [] c' r' hc'q]
  · have hqf : needsQuote cell = false := by
      cases hnq : needsQuote cell
      · rfl
      · exact absurd hnq hq
    have hchars := needsQuote_false_chars hqf
    simp only [encodeCell, hqf]
    rw [if_neg (by simp)]
    cases cell with
    | nil =>
      simp only [List.nil_append, parseOneCell]
      rw [if_neg hc'q]
      simp [parseUnquoted, hstop]
    | cons x xs =>
      have hx := hchars x (List.mem_cons_self x xs)
      simp only [List.cons_append, parseOneCell]
      rw [if_neg hx.2.1]
      have hclean : ∀ c ∈ x :: xs, isStopChar c = false := by
        intro c hc
        have := hchars c hc
        simp [isStopChar, this.1, this.2.2.1, this.2.2.2]
      have h4 := parseUnquoted_clean (x :: xs) c' r' hclean hstop
      simp only [List.cons_append] at h4
      rw [h4]

theorem parseCellsF_encodeLine : ∀ (cells : List (List Char)) (rest : List Char) (fuel : Nat),
    cells ≠ [] → cells.length ≤ fuel →
    parseCellsF fuel (encodeLine cells ++ '\r' :: '\n' :: rest) = some (cells, rest) := by
  intro cells
  induction cells with
  | nil => intro rest fuel h _; exact absurd rfl h
  | cons c cs ih =>
    intro rest fuel _ hfuel
    cases fuel with
    | zero => simp at hfuel
    | succ f =>
      cases cs with
      | nil =>
        have hpc := parseOneCell_encodeCell c '\r' ('\n' :: rest) (by simp [isStopChar])
        simp [encodeLine, parseCellsF, hpc]
      | cons c2 cs2 =>
        have hpc := parseOneCell_encodeCell c ','
          (encodeLine (c2 :: cs2) ++ '\r' :: '\n' :: rest) (by simp [isStopChar])
        have hih := ih rest f (by simp) (by simp at hfuel ⊢; omega)
        have hL : encodeLine (c :: c2 :: cs2) ++ '\r' :: '\n' :: rest
            = encodeCell c ++ ',' :: (encodeLine (c2 :: cs2) ++ '\r' :: '\n' :: rest) := by
          simp only [encodeLine, List.append_assoc, List.cons_append]
        rw [hL]
        simp [parseCellsF, hpc, hih]

theorem encodeLine_length : ∀ cells : List (List Char),
    cells.length ≤ (encodeLine cells).length + 1 := by
  intro cells
  induction cells with
  | nil => simp [encodeLine]
  | cons c cs ih =>
    cases cs with
    | nil => simp [encodeLine]
    | cons c2 cs2 =>
      simp only [encodeLine, List.length_append, List.length_cons] at ih ⊢
      omega

theorem encodeFile_length : ∀ rows : List (List (List Char)),
    rows.length ≤ (encodeFile rows).length := by
  intro rows
  induction rows with
  | nil => simp [encodeFile]
  | cons r rs ih =>
    simp only [encodeFile, List.foldr_cons, List.length_append, List.length_cons] at ih ⊢
    omega

theorem parseRowsF_encodeFile : ∀ (rows : List (List (List Char))) (fuel : Nat),
    (∀ r ∈ rows, r ≠ []) → rows.length ≤ fuel →
    parseRowsF fuel (encodeFile rows) = some rows := by
  intro rows
  induction rows with
  | nil => intro fuel _ _; cases fuel <;> rfl
  | cons r rs ih =>
    intro fuel hne hfuel
    cases fuel with
    | zero => simp at hfuel
    | succ f =>
      have hr : r ≠ [] := hne r (List.mem_cons_self r rs)
      have hbody : parseCells (encodeLine r ++ '\r' :: '\n' :: encodeFile rs)
          = some (r, encodeFile rs) := by
        apply parseCellsF_encodeLine r (encodeFile rs) _ hr
        have h1 := encodeLine_length r
        simp only [List.length_append, List.length_cons]
        omega
      have hfile : encodeFile (r :: rs) = encodeLine r ++ '\r' :: '\n' :: encodeFile rs := rfl
      rw [hfile]
      cases hE : encodeLine r with
      | nil =>
        rw [hE] at hbody
        simp only [List.nil_append] at hbody ⊢
        simp only [parseRowsF, hbody]
        rw [ih f (fun x hx => hne x (List.mem_cons_of_mem r hx)) (by simp at hfuel ⊢; omega)]
      | cons e es =>
        rw [hE] at hbody
        simp only [List.cons_append] at hbody ⊢
        simp only [parseRowsF, hbody]
        rw [ih f (fun x hx => hne x (List.mem_cons_of_mem r hx)) (by simp at hfuel ⊢; omega)]

/-- Round trip of the csv codec: parsing an encoded file recovers exactly the
logical rows, for any rows with at least one cell each. -/
theorem parseRows_encodeFile (rows : List (List (List Char)))
    (hne : ∀ r ∈ rows, r ≠ []) :
    parseRows (encodeFile rows) = some rows := by
  apply parseRowsF_encodeFile rows _ hne
  exact encodeFile_length rows

/-- A list of string rows as char-list rows. -/
def rowsToChars (rows : List (List String)) : List (List (List Char)) :=
  rows.map fun r => r.map String.data

/-- The character content `write_csv` produces for a list of `Course` rows:
the header row from `FIELDS`, then one rendered row per course, csv-encoded.
-/
def writeCsvContent (rows : List Course) : List Char :=
  encodeFile (rowsToChars (FIELDS :: rows.map renderCourse))

theorem string_mk_data (s : String) : String.mk s.data = s := by
  cases s
  rfl

/-- Python `os.path.dirname` for POSIX paths: the prefix up to the last `/`,
with trailing slashes stripped unless the head is all slashes; the empty
string when the path has no `/`. -/
def pythonDirname (p : String) : String :=
  let headRev := p.data.reverse.dropWhile (fun c => !(c = '/'))
  let headRev :=
    if headRev.all (fun c => c = '/') then headRev
    else headRev.dropWhile (fun c => c = '/')
  ⟨headRev.reverse⟩

/-- Modelled semantics of Python `os.makedirs(path, exist_ok=True)` as
`write_csv` calls it: any missing directories of a non-empty path are
created and the call succeeds (`exist_ok=True` silences pre-existence);
the empty path makes the underlying `mkdir('')` raise `FileNotFoundError`.
-/
def osMakedirs (path : String) : Except String Unit :=
  if strIsEmpty path then
    .error "FileNotFoundError: [Errno 2] No such file or directory: ''"
  else .ok ()

/-- `write_csv(rows, out_path)`: `os.makedirs(os.path.dirname(out_path),
exist_ok=True)`, then the file is opened at `out_path` and the header plus
one row per course are written. The result is the written path and its
character content, or the raised error. -/
def write_csv (rows : List Course) (outPath : String) :
    Except String (String × List Char) :=
  match osMakedirs (pythonDirname outPath) with
  | .error e => .error e
  | .ok _ => .ok (outPath, writeCsvContent rows)

/-! ## Fetch primitive

`get` in `webscrapp.py`:

```
@retry(stop=stop_after_attempt(3), wait=wait_exponential(multiplier=1, min=1, max=8),
       retry=retry_if_exception_type((requests.RequestException, ScrapeError)))
def get(url, **kwargs):
    resp = SESSION.get(url, timeout=30, **kwargs)
    if resp.status_code >= 400:
        raise ScrapeError(...)
    return resp
```

The transport is abstracted as a function from the (1-based) attempt number
to what `SESSION.get` does on that attempt. The tenacity decorator's
semantics: run the attempt; on a retryable exception, if the failed
attempt's number has reached `stop_after_attempt`'s bound, surface the
error (tenacity's `RetryError`, the spec's `FetchError`), else sleep
`wait_exponential` of the failed attempt's number and try again. -/

/-- What the raw transport does on one attempt. -/
inductive TransportResult where
  | exc (msg : String)
  | resp (status : Nat) (body : String)
deriving DecidableEq, Repr

/-- A transport behaviour: attempt number (1-based) to outcome. -/
def Transport : Type := Nat → TransportResult

/-- An HTTP response as `get` returns it. -/
structure HttpResponse where
  status : Nat
  body : String
deriving DecidableEq, Repr

/-- The retryable failure classes of `get`: a `requests.RequestException`
from the transport, or the `ScrapeError` `get` raises on status >= 400. -/
inductive GetError where
  | requestException (msg : String)
  | scrapeError (status : Nat)
deriving DecidableEq, Repr

/-- One undecorated run of `get`'s body at attempt `n`. -/
def getOnce (t : Transport) (n : Nat) : Except GetError HttpResponse :=
  match t n with
  | .exc m => .error (.requestException m)
  | .resp s b => if 400 ≤ s then .error (.scrapeError s) else .ok ⟨s, b⟩

/-- tenacity `wait_exponential(multiplier, max, exp_base=2, min)` at the
failed attempt's number: `max(max(0, min), min(multiplier * 2^(n-1), max))`
(seconds, integral here as in the call site's arguments). -/
def waitExponential (multiplier mn mx : Nat) (attemptNumber : Nat) : Nat :=
  max (max 0 mn) (min (multiplier * 2 ^ (attemptNumber - 1)) mx)

/-- The outcome of the decorated call: the value returned or the error
surfaced after retry exhaustion, with the total number of attempts made and
the sleeps (in seconds) taken between attempts, in order. -/
inductive GetOutcome where
  | success (resp : HttpResponse) (attempts : Nat) (waits : List Nat)
  | failure (lastError : GetError) (attempts : Nat) (waits : List Nat)
deriving DecidableEq, Repr

/-- tenacity's retry loop: `left` is the number of attempts still allowed
(`stop_after_attempt`'s bound minus the attempts already made), `n` the
current attempt number, `waits` the sleeps taken so far. -/
def retryGo (t : Transport) (wait : Nat → Nat) : Nat → Nat → List Nat → GetOutcome
  | 0, n, waits => .failure (.requestException "unreachable") n waits
  | left + 1, n, waits =>
    match getOnce t n with
    | .ok r => .success r n waits
    | .error e =>
      match left with
      | 0 => .failure e n waits
      | l + 1 => retryGo t wait (l + 1) (n + 1) (waits ++ [wait n])

/-- The decorated `get`: `stop_after_attempt(3)` and
`wait_exponential(multiplier=1, min=1, max=8)`. -/
def getModel (t : Transport) : GetOutcome :=
  retryGo t (waitExponential 1 1 8) 3 1 []

/-- Attempts a `GetOutcome` reports. -/
def attemptsOf : GetOutcome → Nat
  | .success _ n _ => n
  | .failure _ n _ => n

/-- Sleeps a `GetOutcome` reports. -/
def waitsOf : GetOutcome → List Nat
  | .success _ _ w => w
  | .failure _ _ w => w

/-! ## Adapters

The HTML-parse collaborator is abstracted per page: the anchors
`soup.select("a[href]")` returns (attribute value and stripped visible
text), the stripped text of the first `h1`/`h2`/`title` element
(`LearningGovAdapter`'s detail-title probe), the stripped text of the
first `h1, h2.page-title, .course-title` match (`LearnEthiopiaAdapter`'s
probe), and the anchors matching the Moodle course-box selectors
(`ELearnETHAdapter`). A fetcher maps a URL to a fetched page or the
exception `get` surfaced. -/

/-- One anchor element with an `href` attribute: the attribute's value and
`get_text(strip=True)`. -/
structure Anchor where
  href : String
  text : String
deriving DecidableEq, Repr

/-- A fetched, parsed page, abstracted to the queries the adapters make. -/
structure Html where
  anchors : List Anchor := []
  heading : Option String := none
  detailTitle : Option String := none
  courseBoxes : List Anchor := []
deriving DecidableEq, Repr

/-- The fetch-and-parse oracle an adapter works against: `self.soup(url)`.
`.error` is the exception surfaced by `get` (after its internal retries). -/
def Fetcher : Type := String → Except String Html

/-- Relative-path resolution as every adapter writes it:
`if href.startswith("/"): href = self.base_url + href`. -/
def resolveHref (base href : String) : String :=
  if startsWithSlash href then base ++ href else href

/-- `a.get_text(strip=True) or href` (Python `or`: empty string is falsy). -/
def textOr (text fallback : String) : String :=
  if strIsEmpty text then fallback else text

/-! ### LearningGovAdapter -/

def learningGovBase : String := "https://learning.gov.et"

def learningGovName : String := "Learning.gov.et"

/-- `re.search(r"course|training|program|module", href, re.I)`. -/
def learningGovKw (s : String) : Bool :=
  kwWords ["course", "training", "program", "module"] s

/-- The body of `LearningGovAdapter.iter_courses`'s loop for one raw href
from the sorted, deduplicated link set: skip a falsy href, resolve it,
filter by keyword, fetch the detail page (skipping the href on any
exception), and build the Course with the first heading's text as title,
falling back to the resolved href. -/
def learningGovDetail (fetch : Fetcher) (rawHref : String) : Option Course :=
  if strIsEmpty rawHref then none
  else
    let href := resolveHref learningGovBase rawHref
    if learningGovKw href then
      match fetch href with
      | .error _ => none
      | .ok csoup =>
        some { course_id := href,
               course_title := match csoup.heading with
                 | some t => t
                 | none => href,
               url := href,
               provider := some learningGovName }
    else none

/-- `LearningGovAdapter.iter_courses`: fetch the homepage (an exception here
propagates to the caller), collect the set of anchor hrefs
(`{a.get("href") for a in soup.select("a[href]")}`), and walk them in
`sorted` order. `dedup` models the set, `insertionSort` by code-point
order models `sorted`. -/
def learningGovIter (fetch : Fetcher) : Except String (List Course) :=
  match fetch learningGovBase with
  | .error e => .error e
  | .ok page =>
    .ok ((((page.anchors.map Anchor.href).dedup).insertionSort strle).filterMap
      (learningGovDetail fetch))

/-! ### LearnEthiopiaAdapter -/

def learnEthiopiaBase : String := "https://learnethiopia.com"

def learnEthiopiaName : String := "LearnEthiopia.com"

/-- `re.search(r"/course/|/courses/|/program/", href, re.I)`. -/
def learnEthiopiaKw (s : String) : Bool :=
  kwWords ["/course/", "/courses/", "/program/"] s

/-- The body of `LearnEthiopiaAdapter.iter_courses`'s inner loop for one
anchor, threading the `seen` set and the output: skip falsy hrefs, resolve,
require the base url as substring and novelty, filter by keyword, mark
seen, then fetch the detail page for a title (`h1, h2.page-title,
.course-title`), falling back to the anchor text, falling back to the
href; a detail-fetch exception takes the same fallback. -/
def learnEthiopiaStep (fetch : Fetcher) (acc : List String × List Course)
    (a : Anchor) : List String × List Course :=
  if strIsEmpty a.href then acc
  else
    let href := resolveHref learnEthiopiaBase a.href
    if !containsSub href learnEthiopiaBase || decide (href ∈ acc.1) then acc
    else if learnEthiopiaKw href then
      let title :=
        match fetch href with
        | .ok csoup =>
          match csoup.detailTitle with
          | some t => t
          | none => textOr a.text href
        | .error _ => textOr a.text href
      (acc.1 ++ [href],
       acc.2 ++ [{ course_id := href, course_title := title, url := href,
                   provider := some learnEthiopiaName }])
    else acc

/-- `LearnEthiopiaAdapter.iter_courses`: walk the two catalog urls, skipping
one wholesale on a fetch exception, with `seen` shared across them. -/
def learnEthiopiaIter (fetch : Fetcher) : Except String (List Course) :=
  .ok (([learnEthiopiaBase, learnEthiopiaBase ++ "/courses"].foldl
    (fun acc url =>
      match fetch url with
      | .error _ => acc
      | .ok page => page.anchors.foldl (learnEthiopiaStep fetch) acc)
    ([], [])).2)

/-! ### The keyword-crawl adapters

`EduHubAdapter`, `ALXAdapter`, `SmartEthioAdapter`, `AfriworkAdapter`,
`KubayaAdapter`, `StaffordAdapter`, `AAUAdapter`,
`AAUElearnAfricaAdapter`, `StMarysAdapter`, `ILIAdapter`,
`InfonetAdapter`, `MicrolinkAdapter`, `EnnliteAdapter` and `GxCampAdapter`
share one loop body: for every anchor of the base page, skip falsy hrefs,
resolve, keep hrefs containing the base url and matching the
source-specific keyword alternation, and yield a Course titled by the
anchor text with the href as fallback. They differ in the keyword list, in
fixed extra fields (`SmartEthio` sets `subject="K12"`, `Kubaya` sets
`language="Amharic"`), and in whether the base-page fetch is guarded by a
`try`/`except` returning `[]` (guarded) or unguarded (the exception
propagates). -/

structure KwAdapter where
  base : String
  name : String
  words : List String
  subj : Option String := none
  lang : Option String := none

/-- The shared loop body for one anchor. -/
def kwAnchorCourse (A : KwAdapter) (a : Anchor) : Option Course :=
  if strIsEmpty a.href then none
  else
    let href := resolveHref A.base a.href
    if containsSub href A.base && kwWords A.words href then
      some { course_id := href, course_title := textOr a.text href,
             url := href, provider := some A.name,
             subject := A.subj, language := A.lang }
    else none

/-- A keyword-crawl `iter_courses` whose base-page fetch is wrapped in
`try ... except Exception: return []`. -/
def kwIterGuarded (A : KwAdapter) (fetch : Fetcher) : Except String (List Course) :=
  match fetch A.base with
  | .error _ => .ok []
  | .ok page => .ok (page.anchors.filterMap (kwAnchorCourse A))

/-- A keyword-crawl `iter_courses` with no guard around the base-page
fetch: the exception propagates to the caller. -/
def kwIterPlain (A : KwAdapter) (fetch : Fetcher) : Except String (List Course) :=
  match fetch A.base with
  | .error e => .error e
  | .ok page => .ok (page.anchors.filterMap (kwAnchorCourse A))

/-! ### ELearnETHAdapter (Moodle-style course boxes) -/

/-- One course box of `ELearnETHAdapter`: skip falsy hrefs, resolve, title
from the box text with the href as fallback; no keyword filter. -/
def moodleCourse (base name : String) (box : Anchor) : Option Course :=
  if strIsEmpty box.href then none
  else
    let href := resolveHref base box.href
    some { course_id := href, course_title := textOr box.text href,
           url := href, provider := some name }

/-- `ELearnETHAdapter.iter_courses`: walk `/course/index.php` then the base
url, skipping a url wholesale on a fetch exception. -/
def moodleIter (base name : String) (fetch : Fetcher) : Except String (List Course) :=
  .ok (([base ++ "/course/index.php", base]).foldl
    (fun out url =>
      match fetch url with
      | .error _ => out
      | .ok page => out ++ page.courseBoxes.filterMap (moodleCourse base name))
    [])

/-- An `iter_courses` that returns the empty list (`LearnUpAdapter`,
`FiveMillionCodersAdapter`, `HagerlyAdapter`, `HaletaAdapter`,
`ZemenTechAdapter`). -/
def emptyIter : Fetcher → Except String (List Course) := fun _ => .ok []

/-! ## Adapter registry

`ADAPTERS` is a dict filled by the `@register` decorators at import time,
one instance per adapter class, keyed by `key`, in source order. An
adapter is its `key`, its `display_name`, its `is_allowed()` result
(`BaseAdapter.is_allowed` returns `True` and no registered adapter
overrides it) and its `iter_courses` behaviour. -/

structure AdapterDef where
  key : String
  displayName : String
  isAllowed : Bool := true
  iter : Fetcher → Except String (List Course)

def adapterLearningGov : AdapterDef :=
  { key := "learninggov", displayName := learningGovName, iter := learningGovIter }

def adapterLearnEthiopia : AdapterDef :=
  { key := "learnethiopia", displayName := learnEthiopiaName, iter := learnEthiopiaIter }

def eduHubA : KwAdapter :=
  { base := "https://eduhubplc.com", name := "EDUHUB Technology Solutions",
    words := ["course", "training", "solution", "product"] }

def adapterEduHub : AdapterDef :=
  { key := "eduhubplc", displayName := eduHubA.name, iter := kwIterPlain eduHubA }

def alxA : KwAdapter :=
  { base := "https://www.alxafrica.com", name := "ALX Africa",
    words := ["program", "course", "software", "data", "cloud", "ai"] }

def adapterALX : AdapterDef :=
  { key := "alx", displayName := alxA.name, iter := kwIterPlain alxA }

def smartEthioA : KwAdapter :=
  { base := "https://smartethio.com", name := "SmartEthio",
    words := ["grade", "subject", "course", "lesson", "exam"],
    subj := some "K12" }

def adapterSmartEthio : AdapterDef :=
  { key := "smartethio", displayName := smartEthioA.name, iter := kwIterGuarded smartEthioA }

def afriworkA : KwAdapter :=
  { base := "https://afriwork.com", name := "Afriwork",
    words := ["learn", "academy", "blog", "training", "skills"] }

def adapterAfriwork : AdapterDef :=
  { key := "afriwork", displayName := afriworkA.name, iter := kwIterGuarded afriworkA }

def kubayaA : KwAdapter :=
  { base := "https://kubayalearning.com", name := "Kubaya Learning",
    words := ["course", "lesson", "learn", "levels", "amharic"],
    lang := some "Amharic" }

def adapterKubaya : AdapterDef :=
  { key := "kubaya", displayName := kubayaA.name, iter := kwIterPlain kubayaA }

def staffordA : KwAdapter :=
  { base := "https://www.staffordglobal.org", name := "Stafford Global",
    words := ["program", "course", "mba", "msc", "pgce", "degree"] }

def adapterStafford : AdapterDef :=
  { key := "staffordglobal", displayName := staffordA.name, iter := kwIterPlain staffordA }

def adapterELearnETH : AdapterDef :=
  { key := "elearneth", displayName := "eLearn Ethiopia",
    iter := moodleIter "https://elearnethiopia.example" "eLearn Ethiopia" }

def aauA : KwAdapter :=
  { base := "https://elearning.aau.edu.et", name := "AAU e-Learning",
    words := ["course", "program", "catalog", "category"] }

def adapterAAU : AdapterDef :=
  { key := "aau", displayName := aauA.name, iter := kwIterGuarded aauA }

def aauElearnAfricaA : KwAdapter :=
  { base := "https://elearnafrica.example", name := "AAU‑eLearnAfrica LMS",
    words := ["course", "program", "catalog", "category"] }

def adapterAAUElearnAfrica : AdapterDef :=
  { key := "aau_elearnafrica", displayName := aauElearnAfricaA.name,
    iter := kwIterGuarded aauElearnAfricaA }

def stMarysA : KwAdapter :=
  { base := "https://smuc.edu.et", name := "St. Mary’s University Distance Education",
    words := ["distance", "program", "course", "degree"] }

def adapterStMarys : AdapterDef :=
  { key := "stmarys", displayName := stMarysA.name, iter := kwIterGuarded stMarysA }

def iliA : KwAdapter :=
  { base := "https://ili.edu.et", name := "International Leadership Institute",
    words := ["program", "course", "diploma", "degree", "certificate"] }

def adapterILI : AdapterDef :=
  { key := "ili", displayName := iliA.name, iter := kwIterGuarded iliA }

def infonetA : KwAdapter :=
  { base := "https://infonetcollege.example", name := "Infonet College",
    words := ["short-course", "training", "program", "course"] }

def adapterInfonet : AdapterDef :=
  { key := "infonet", displayName := infonetA.name, iter := kwIterGuarded infonetA }

def microlinkA : KwAdapter :=
  { base := "https://microlinkcolleges.net", name := "Microlink IT College",
    words := ["cisco", "ict", "program", "course", "training"] }

def adapterMicrolink : AdapterDef :=
  { key := "microlink", displayName := microlinkA.name, iter := kwIterGuarded microlinkA }

def ennliteA : KwAdapter :=
  { base := "https://ennlite.example", name := "Ennlite Academy",
    words := ["course", "training", "graphic", "marketing", "web", "app"] }

def adapterEnnlite : AdapterDef :=
  { key := "ennlite", displayName := ennliteA.name, iter := kwIterGuarded ennliteA }

def gxcampA : KwAdapter :=
  { base := "https://gxcamp.example", name := "GxCamp",
    words := ["course", "ict", "english", "web", "amharic"] }

def adapterGxCamp : AdapterDef :=
  { key := "gxcamp", displayName := gxcampA.name, iter := kwIterGuarded gxcampA }

def adapterLearnUp : AdapterDef :=
  { key := "learnup", displayName := "LearnUp Ethiopia", iter := emptyIter }

def adapterFiveMillionCoders : AdapterDef :=
  { key := "5mec", displayName := "5 Million Ethiopian Coders", iter := emptyIter }

def adapterHagerly : AdapterDef :=
  { key := "hagerly", displayName := "Hagerly", iter := emptyIter }

def adapterHaleta : AdapterDef :=
  { key := "haleta", displayName := "Haleta App", iter := emptyIter }

def adapterZemenTech : AdapterDef :=
  { key := "zementechnologies", displayName := "Zemen Technologies", iter := emptyIter }

/-- `ADAPTERS` in registration (source) order. -/
def REGISTRY : List AdapterDef :=
  [adapterLearningGov, adapterLearnEthiopia, adapterEduHub, adapterALX,
   adapterSmartEthio, adapterAfriwork, adapterKubaya, adapterStafford,
   adapterELearnETH, adapterAAU, adapterAAUElearnAfrica, adapterStMarys,
   adapterILI, adapterInfonet, adapterMicrolink, adapterEnnlite,
   adapterGxCamp, adapterLearnUp, adapterFiveMillionCoders, adapterHagerly,
   adapterHaleta, adapterZemenTech]

/-- `ADAPTERS.get(key)`: dict lookup (the registry's keys are distinct). -/
def lookupAdapter (key : String) (reg : List AdapterDef) : Option AdapterDef :=
  reg.find? fun a => a.key = key

/-! ## Run controller -/

/-- `run_all()`: walk the registry in order; skip the (never actually
registered) key `"base"`; materialize each adapter's `iter_courses` inside
`try`, extending the aggregate on success; on any exception, log a warning
`f"{adapter.display_name}: {e}"` (collected here as `(displayName, message)`
pairs) and continue. Returns the aggregated courses and the log. -/
def runAll (reg : List AdapterDef) (fetch : Fetcher) :
    List Course × List (String × String) :=
  reg.foldl
    (fun acc a =>
      if a.key = "base" then acc
      else
        match a.iter fetch with
        | .ok items => (acc.1 ++ items, acc.2)
        | .error e => (acc.1, acc.2 ++ [(a.displayName, e)]))
    ([], [])

/-! ## CLI (`main`) -/

/-- The parsed argparse namespace: `--site`, `--all`, `--out`,
`--list-sites`. -/
structure Args where
  site : Option String := none
  all : Bool := false
  out : String := "data/courses.csv"
  listSites : Bool := false

/-- How one invocation of `main` ends.
  * `listed`: `--list-sites` printed the keys and display names; exit 0.
  * `fatal`: `raise SystemExit(msg)` — the message is printed and the
    process exits with code 1; no output file is produced.
  * `crashed`: an uncaught exception out of `run_one`'s
    `list(adapter.iter_courses())`; non-zero exit, no output file.
  * `wrote`: control reached `write_csv(courses, out)`. -/
inductive MainOutcome where
  | listed (entries : List (String × String))
  | fatal (msg : String)
  | crashed (msg : String)
  | wrote (rows : List Course) (path : String)
deriving DecidableEq, Repr

/-- Is the outcome a `SystemExit` with a message? -/
def MainOutcome.isFatal : MainOutcome → Bool
  | .fatal _ => true
  | _ => false

/-- Python truthiness of `args.site` (a string option): `None` and the
empty string are falsy. -/
def siteTruthy (site : Option String) : Bool :=
  match site with
  | none => false
  | some s => !(strIsEmpty s)

/-- How one invocation of `run_one(key)` (webscrapp.py:669-674) ends: an
unknown key raises `SystemExit` with a guidance message before any adapter
runs; otherwise `list(adapter.iter_courses())` either materializes the
records or lets the adapter's exception propagate uncaught. -/
inductive RunOneOutcome where
  | unknownKey (msg : String)
  | raised (e : String)
  | ok (rows : List Course)
deriving DecidableEq, Repr

/-- `run_one(key)`: `ADAPTERS.get(key)`, `SystemExit` when absent, else the
materialized `iter_courses`. `is_allowed` is never consulted. -/
def run_one (key : String) (reg : List AdapterDef) (fetch : Fetcher) : RunOneOutcome :=
  match lookupAdapter key reg with
  | none => .unknownKey ("Unknown site key: " ++ key ++ ". Use --list-sites to see options.")
  | some a =>
    match a.iter fetch with
    | .ok cs => .ok cs
    | .error e => .raised e

/-- `main()` over a registry and a transport oracle: `--list-sites` first;
then the two usage checks (`if args.site and args.all`,
`if not args.site and not args.all`, both on Python truthiness); then
`if args.site:` — the single-site path through `run_one` (an unknown key is
a `SystemExit` before any adapter runs) — or the all-sites path through
`run_all`; finally `write_csv`. -/
def mainRun (reg : List AdapterDef) (args : Args) (fetch : Fetcher) : MainOutcome :=
  if args.listSites then
    .listed ((reg.filter fun a => !(a.key = "base")).map fun a => (a.key, a.displayName))
  else if siteTruthy args.site && args.all then
    .fatal "Use either --site or --all, not both."
  else if !siteTruthy args.site && !args.all then
    .fatal "Please specify --site <key> or --all. Use --list-sites to see keys."
  else if siteTruthy args.site then
    match args.site with
    | some k =>
      match run_one k reg fetch with
      | .unknownKey m => .fatal m
      | .raised e => .crashed e
      | .ok cs => .wrote cs args.out
    | none => .wrote (runAll reg fetch).1 args.out
  else .wrote (runAll reg fetch).1 args.out

/-- The fatal-invocation conditions of the claim: both `--site` and
`--all`; neither; or `--site` with a key absent from the registry (and
`--list-sites` not given, which returns before the checks). -/
def fatalArgs (reg : List AdapterDef) (args : Args) : Bool :=
  !args.listSites &&
    ((siteTruthy args.site && args.all) ||
     (!siteTruthy args.site && !args.all) ||
     (match args.site with
      | some k => !(strIsEmpty k) && !args.all && (lookupAdapter k reg).isNone
      | none => false))

/-! ## Properties of the run controller -/

/-- The records a finished adapter contributes to `run_all`: its full
materialized output, or nothing when `iter_courses` raised. -/
def okRecords (fetch : Fetcher) (a : AdapterDef) : List Course :=
  match a.iter fetch with
  | .ok l => l
  | .error _ => []

/-- The warning-log entry a failing adapter contributes to `run_all`. -/
def errEntry (fetch : Fetcher) (a : AdapterDef) : Option (String × String) :=
  match a.iter fetch with
  | .ok _ => none
  | .error e => some (a.displayName, e)

theorem runAll_foldl (fetch : Fetcher) :
    ∀ (reg : List AdapterDef) (acc : List Course × List (String × String)),
    reg.foldl
      (fun acc a =>
        if a.key = "base" then acc
        else
          match a.iter fetch with
          | .ok items => (acc.1 ++ items, acc.2)
          | .error e => (acc.1, acc.2 ++ [(a.displayName, e)]))
      acc
    = (acc.1 ++ (reg.filter fun a => !(a.key = "base")).flatMap (okRecords fetch),
       acc.2 ++ (reg.filter fun a => !(a.key = "base")).filterMap (errEntry fetch)) := by
  intro reg
  induction reg with
  | nil => intro acc; simp
  | cons a as ih =>
    intro acc
    by_cases hb : a.key = "base"
    · simp only [List.foldl_cons, if_pos hb, List.filter_cons]
      rw [if_neg (by simp [hb])]
      exact ih acc
    · simp only [List.foldl_cons, if_neg hb, List.filter_cons]
      have hbb : (!(decide (a.key = "base"))) = true := by
        simp [hb]
      rw [if_pos hbb]
      cases hi : a.iter fetch with
      | ok items =>
        rw [ih (acc.1 ++ items, acc.2)]
        simp [okRecords, errEntry, hi, List.append_assoc]
      | error e =>
        rw [ih (acc.1, acc.2 ++ [(a.displayName, e)])]
        simp [okRecords, errEntry, hi, List.append_assoc]

theorem runAll_spec (reg : List AdapterDef) (fetch : Fetcher) :
    runAll reg fetch
      = ((reg.filter fun a => !(a.key = "base")).flatMap (okRecords fetch),
         (reg.filter fun a => !(a.key = "base")).filterMap (errEntry fetch)) := by
  unfold runAll
  rw [runAll_foldl fetch reg ([], [])]
  simp

/-! ## Fixtures for witnesses and counterexamples -/

/-- A sample record. -/
def cDup : Course :=
  { course_id := "https://x.example/c", course_title := "Course C",
    url := "https://x.example/c" }

/-- A sample record. -/
def cA : Course :=
  { course_id := "https://x.example/a", course_title := "Course A",
    url := "https://x.example/a" }

def wAdapterA : AdapterDef :=
  { key := "a", displayName := "A", iter := fun _ => .ok [cA, cDup] }

def wAdapterB : AdapterDef :=
  { key := "b", displayName := "B", iter := fun _ => .error "boom" }

def wAdapterC : AdapterDef :=
  { key := "c", displayName := "C", iter := fun _ => .ok [cDup] }

/-- An adapter whose policy gate answers `false` but whose extraction
yields a record: what a `robots.txt`-blocked source would look like. -/
def disallowedAdapter : AdapterDef :=
  { key := "blocked", displayName := "Blocked", isAllowed := false,
    iter := fun _ => .ok [cDup] }

/-- A transport that is offline for every url. -/
def offlineFetch : Fetcher := fun _ => .error "offline"

/-- `isAllowed` overwritten uniformly: used to state that the run
controller never consults the flag. -/
def setAllowed (b : Bool) (reg : List AdapterDef) : List AdapterDef :=
  reg.map fun a => { a with isAllowed := b }

/-- C1: `run_all` returns the in-order concatenation of the materialized
output of every adapter whose `iter_courses` completes (in registration
order, internal order kept, no deduplication), while every raising adapter
contributes no records, is logged with its display name and error message,
and stops nothing: the adapters after it still contribute. -/
theorem claim_c1 (reg : List AdapterDef) (fetch : Fetcher)
    (hkeys : ∀ a ∈ reg, a.key ≠ "base") :
    (runAll reg fetch).1 = reg.flatMap (okRecords fetch)
  ∧ (runAll reg fetch).2 = reg.filterMap (errEntry fetch) := by
  rw [runAll_spec]
  have hf : (reg.filter fun a => !(a.key = "base")) = reg := by
    apply List.filter_eq_self.mpr
    intro a ha
    simp [hkeys a ha]
  rw [hf]
  exact ⟨rfl, rfl⟩

/-- C1 witness: the end-to-end scenario of spec §8 — A yields two records,
B raises, C yields one record equal to one of A's; the run returns A's two
and C's one (duplicate kept), logs B, and C still ran after B's failure. -/
theorem claim_c1_witness :
    (∀ a ∈ [wAdapterA, wAdapterB, wAdapterC], a.key ≠ "base")
  ∧ (runAll [wAdapterA, wAdapterB, wAdapterC] offlineFetch).1
      = [wAdapterA, wAdapterB, wAdapterC].flatMap (okRecords offlineFetch)
  ∧ (runAll [wAdapterA, wAdapterB, wAdapterC] offlineFetch).2
      = [wAdapterA, wAdapterB, wAdapterC].filterMap (errEntry offlineFetch)
  ∧ (runAll [wAdapterA, wAdapterB, wAdapterC] offlineFetch).1 = [cA, cDup, cDup]
  ∧ (runAll [wAdapterA, wAdapterB, wAdapterC] offlineFetch).2 = [("B", "boom")] := by
  have hkeys : ∀ a ∈ [wAdapterA, wAdapterB, wAdapterC], a.key ≠ "base" := by
    intro a ha
    rcases (by simpa using ha : a = wAdapterA ∨ a = wAdapterB ∨ a = wAdapterC) with
      rfl | rfl | rfl <;> decide
  have h := claim_c1 [wAdapterA, wAdapterB, wAdapterC] offlineFetch hkeys
  exact ⟨hkeys, h.1, h.2, by rfl, by rfl⟩

/-- C6 counterexample: an adapter whose `isAllowed` is `false` is not
skipped — `run_all` still materializes its `iter_courses` and returns its
records, so it does not contribute zero records. -/
theorem claim_c6_counterexample :
    disallowedAdapter.isAllowed = false
  ∧ (runAll [disallowedAdapter] offlineFetch).1 = [cDup]
  ∧ ([cDup] : List Course) ≠ [] := by
  exact ⟨rfl, rfl, by simp⟩

theorem runAll_setAllowed (reg : List AdapterDef) (fetch : Fetcher) (b : Bool) :
    runAll (setAllowed b reg) fetch = runAll reg fetch := by
  rw [runAll_spec, runAll_spec]
  have h2 : ∀ l : List AdapterDef,
      ((setAllowed b l).filter fun a => !(a.key = "base")).flatMap (okRecords fetch)
        = (l.filter fun a => !(a.key = "base")).flatMap (okRecords fetch) := by
    intro l
    induction l with
    | nil => rfl
    | cons a as ih =>
      simp only [setAllowed, List.map_cons, List.filter_cons]
      by_cases hb : a.key = "base"
      · rw [if_neg (by simp [hb]), if_neg (by simp [hb])]
        exact ih
      · rw [if_pos (by simp [hb]), if_pos (by simp [hb])]
        simp only [List.flatMap_cons]
        rw [show ((List.map (fun a => { a with isAllowed := b }) as).filter
            fun a => !(a.key = "base")) = ((setAllowed b as).filter
            fun a => !(a.key = "base")) from rfl]
        rw [ih]
        rfl
  have h3 : ∀ l : List AdapterDef,
      ((setAllowed b l).filter fun a => !(a.key = "base")).filterMap (errEntry fetch)
        = (l.filter fun a => !(a.key = "base")).filterMap (errEntry fetch) := by
    intro l
    induction l with
    | nil => rfl
    | cons a as ih =>
      simp only [setAllowed, List.map_cons, List.filter_cons]
      by_cases hb : a.key = "base"
      · rw [if_neg (by simp [hb]), if_neg (by simp [hb])]
        exact ih
      · rw [if_pos (by simp [hb]), if_pos (by simp [hb])]
        simp only [List.filterMap_cons]
        rw [show ((List.map (fun a => { a with isAllowed := b }) as).filter
            fun a => !(a.key = "base")) = ((setAllowed b as).filter
            fun a => !(a.key = "base")) from rfl]
        rw [ih]
        rfl
  exact Prod.ext (h2 reg) (h3 reg)

theorem lookupAdapter_setAllowed (key : String) (b : Bool) :
    ∀ reg : List AdapterDef,
    lookupAdapter key (setAllowed b reg)
      = (lookupAdapter key reg).map fun a => { a with isAllowed := b } := by
  intro reg
  induction reg with
  | nil => rfl
  | cons a as ih =>
    simp only [setAllowed, List.map_cons, lookupAdapter]
    by_cases hk : a.key = key
    · rw [List.find?_cons_of_pos _ (by simp [hk]), List.find?_cons_of_pos _ (by simp [hk])]
      rfl
    · rw [List.find?_cons_of_neg _ (by simp [hk]), List.find?_cons_of_neg _ (by simp [hk])]
      exact ih

theorem listEntries_setAllowed (b : Bool) :
    ∀ l : List AdapterDef,
    ((setAllowed b l).filter fun a => !(a.key = "base")).map
        (fun a => (a.key, a.displayName))
      = (l.filter fun a => !(a.key = "base")).map fun a => (a.key, a.displayName) := by
  intro l
  induction l with
  | nil => rfl
  | cons a as ih =>
    simp only [setAllowed, List.map_cons, List.filter_cons]
    by_cases hb : a.key = "base"
    · rw [if_neg (by simp [hb]), if_neg (by simp [hb])]
      exact ih
    · rw [if_pos (by simp [hb]), if_pos (by simp [hb])]
      simp only [List.map_cons]
      rw [show ((List.map (fun a => { a with isAllowed := b }) as).filter
          fun a => !(a.key = "base")) = ((setAllowed b as).filter
          fun a => !(a.key = "base")) from rfl]
      rw [ih]

theorem run_one_setAllowed (key : String) (reg : List AdapterDef)
    (fetch : Fetcher) (b : Bool) :
    run_one key (setAllowed b reg) fetch = run_one key reg fetch := by
  unfold run_one
  rw [lookupAdapter_setAllowed]
  cases lookupAdapter key reg with
  | none => rfl
  | some a => rfl

/-- C6 as amended: neither `run_all` nor `run_one` (nor `main`'s dispatch
around them) ever consults `isAllowed` — each one's result is unchanged
when every adapter's flag is overwritten by any value — and in the
concrete registry every adapter's `isAllowed` is `true` (the `BaseAdapter`
default; no registered adapter overrides it), so no source is ever
skipped. -/
theorem claim_c6 :
    (∀ (reg : List AdapterDef) (fetch : Fetcher) (b : Bool),
        runAll (setAllowed b reg) fetch = runAll reg fetch)
  ∧ (∀ (key : String) (reg : List AdapterDef) (fetch : Fetcher) (b : Bool),
        run_one key (setAllowed b reg) fetch = run_one key reg fetch)
  ∧ (∀ (reg : List AdapterDef) (args : Args) (fetch : Fetcher) (b : Bool),
        mainRun (setAllowed b reg) args fetch = mainRun reg args fetch)
  ∧ (∀ a ∈ REGISTRY, a.isAllowed = true) := by
  refine ⟨runAll_setAllowed, run_one_setAllowed, ?_, ?_⟩
  · intro reg args fetch b
    unfold mainRun
    by_cases hls : args.listSites = true
    · rw [if_pos hls, if_pos hls, listEntries_setAllowed]
    · rw [if_neg hls, if_neg hls]
      by_cases h1 : (siteTruthy args.site && args.all) = true
      · rw [if_pos h1, if_pos h1]
      · rw [if_neg h1, if_neg h1]
        by_cases h2 : (!siteTruthy args.site && !args.all) = true
        · rw [if_pos h2, if_pos h2]
        · rw [if_neg h2, if_neg h2]
          by_cases h3 : siteTruthy args.site = true
          · rw [if_pos h3, if_pos h3]
            cases hs : args.site with
            | none =>
              show MainOutcome.wrote (runAll (setAllowed b reg) fetch).1 args.out
                  = MainOutcome.wrote (runAll reg fetch).1 args.out
              rw [runAll_setAllowed]
            | some k =>
              show (match run_one k (setAllowed b reg) fetch with
                    | RunOneOutcome.unknownKey m => MainOutcome.fatal m
                    | RunOneOutcome.raised e => MainOutcome.crashed e
                    | RunOneOutcome.ok cs => MainOutcome.wrote cs args.out)
                  = (match run_one k reg fetch with
                    | RunOneOutcome.unknownKey m => MainOutcome.fatal m
                    | RunOneOutcome.raised e => MainOutcome.crashed e
                    | RunOneOutcome.ok cs => MainOutcome.wrote cs args.out)
              rw [run_one_setAllowed]
          · rw [if_neg h3, if_neg h3, runAll_setAllowed]
  · intro a ha
    simp only [REGISTRY, List.mem_cons, List.not_mem_nil, or_false] at ha
    rcases ha with rfl | rfl | rfl | rfl | rfl | rfl | rfl | rfl | rfl | rfl | rfl |
      rfl | rfl | rfl | rfl | rfl | rfl | rfl | rfl | rfl | rfl | rfl <;> rfl

/-- C6 witness: the amended statement applied at a concrete registry,
transport and flag value — for `run_all`, for `run_one` at the blocked
adapter's key, and for `main`'s single-site path — and at a concrete
member of the concrete registry. -/
theorem claim_c6_witness :
    runAll (setAllowed false [disallowedAdapter]) offlineFetch
      = runAll [disallowedAdapter] offlineFetch
  ∧ run_one "blocked" (setAllowed false [disallowedAdapter]) offlineFetch
      = run_one "blocked" [disallowedAdapter] offlineFetch
  ∧ mainRun (setAllowed false [disallowedAdapter]) { site := some "blocked" } offlineFetch
      = mainRun [disallowedAdapter] { site := some "blocked" } offlineFetch
  ∧ adapterLearningGov.isAllowed = true := by
  exact ⟨claim_c6.1 [disallowedAdapter] offlineFetch false,
    claim_c6.2.1 "blocked" [disallowedAdapter] offlineFetch false,
    claim_c6.2.2.1 [disallowedAdapter] { site := some "blocked" } offlineFetch false,
    claim_c6.2.2.2 adapterLearningGov (by simp [REGISTRY])⟩

/-! ## C7: behaviour when the base page is unreachable -/

/-- The registered adapters whose `iter_courses` does not guard its
base-page fetch: the exception propagates to the caller. -/
def unguardedBaseKeys : List String :=
  ["learninggov", "eduhubplc", "alx", "kubaya", "staffordglobal"]

/-- C7 counterexample: `LearningGovAdapter` (one of the claim's cited
adapters) does not produce an empty sequence when its base-page fetch
raises — the error propagates to the caller. -/
theorem claim_c7_counterexample :
    adapterLearningGov ∈ REGISTRY
  ∧ adapterLearningGov.iter offlineFetch = .error "offline"
  ∧ (Except.error "offline" : Except String (List Course)) ≠ .ok [] := by
  refine ⟨by simp [REGISTRY], rfl, by simp⟩

/-- C7 as amended: when every fetch raises (the base page unreachable
after retry exhaustion), the adapters that guard their base fetch with
`try`/`except` — and those that guard each catalog url, and the stub
adapters — produce an empty sequence; but the five unguarded adapters
(`learninggov`, `eduhubplc`, `alx`, `kubaya`, `staffordglobal`) propagate
the error to the caller instead, where only `run_all`'s isolation layer
catches it. -/
theorem claim_c7 (e : String) :
    (∀ a ∈ REGISTRY, a.key ∈ unguardedBaseKeys →
        a.iter (fun _ => .error e) = .error e)
  ∧ (∀ a ∈ REGISTRY, a.key ∉ unguardedBaseKeys →
        a.iter (fun _ => .error e) = .ok []) := by
  constructor
  · intro a ha hk
    simp only [REGISTRY, List.mem_cons, List.not_mem_nil, or_false] at ha
    rcases ha with rfl | rfl | rfl | rfl | rfl | rfl | rfl | rfl | rfl | rfl | rfl |
      rfl | rfl | rfl | rfl | rfl | rfl | rfl | rfl | rfl | rfl | rfl
    all_goals first
      | rfl
      | exact absurd hk (by decide)
  · intro a ha hk
    simp only [REGISTRY, List.mem_cons, List.not_mem_nil, or_false] at ha
    rcases ha with rfl | rfl | rfl | rfl | rfl | rfl | rfl | rfl | rfl | rfl | rfl |
      rfl | rfl | rfl | rfl | rfl | rfl | rfl | rfl | rfl | rfl | rfl
    all_goals first
      | rfl
      | exact absurd (by decide) hk

/-- C7 witness: the amended statement at a concrete failure, for one
unguarded adapter (propagates) and one guarded adapter (empty). -/
theorem claim_c7_witness :
    adapterEduHub.iter (fun _ => .error "down") = .error "down"
  ∧ adapterSmartEthio.iter (fun _ => .error "down") = .ok [] := by
  exact ⟨(claim_c7 "down").1 adapterEduHub (by simp [REGISTRY]) (by decide),
    (claim_c7 "down").2 adapterSmartEthio (by simp [REGISTRY]) (by decide)⟩

/-! ## C9: output-path handling of the Sink -/

/-- C9 counterexample: for an output path with no directory component,
`os.path.dirname` is the empty string and `os.makedirs('')` raises
`FileNotFoundError`, so `write_csv` fails and no file is written —
writing does not succeed for every path. -/
theorem claim_c9_counterexample :
    write_csv [] "courses.csv"
      = .error "FileNotFoundError: [Errno 2] No such file or directory: ''" := by
  rfl

/-- C9 as amended: for every output path whose `os.path.dirname` is
non-empty, `write_csv` first creates the missing parent directories and
then writes the file at that path; a path with no directory component
makes `os.makedirs('')` raise instead. -/
theorem claim_c9 (rows : List Course) (out : String)
    (h : pythonDirname out ≠ "") :
    write_csv rows out = .ok (out, writeCsvContent rows) := by
  unfold write_csv osMakedirs
  rw [if_neg (by simp [(strIsEmpty_false_iff (pythonDirname out)).mpr h])]

/-- C9 witness: the default output path `data/courses.csv` has the parent
`data`, and writing succeeds. -/
theorem claim_c9_witness :
    pythonDirname "data/courses.csv" ≠ ""
  ∧ write_csv [] "data/courses.csv" = .ok ("data/courses.csv", writeCsvContent []) := by
  exact ⟨by decide, claim_c9 [] "data/courses.csv" (by decide)⟩

/-! ## C2, C5: the fetch primitive's retry discipline -/

theorem except_error_of_isOk_false {ε α : Type} {x : Except ε α}
    (h : x.isOk = false) : ∃ e, x = .error e := by
  cases x with
  | error e => exact ⟨e, rfl⟩
  | ok v => exact absurd h (by simp [Except.isOk, Except.toBool])

/-- C2: `get` makes at most 3 attempts; a transport failing (network
exception or status >= 400) on attempts 1 and 2 and succeeding on attempt
3 makes `get` return the success at attempt 3; a transport failing on all
3 attempts makes `get` surface the error (tenacity's `RetryError`, the
spec's `FetchError`) after exactly 3 attempts, with no further retry. -/
theorem claim_c2 (t : Transport) :
    attemptsOf (getModel t) ≤ 3
  ∧ (∀ r : HttpResponse, (getOnce t 1).isOk = false → (getOnce t 2).isOk = false →
      getOnce t 3 = .ok r → getModel t = .success r 3 [1, 2])
  ∧ (∀ e : GetError, (getOnce t 1).isOk = false → (getOnce t 2).isOk = false →
      getOnce t 3 = .error e → getModel t = .failure e 3 [1, 2]) := by
  refine ⟨?_, ?_, ?_⟩
  · cases h1 : getOnce t 1 with
    | ok r => simp [getModel, retryGo, h1, attemptsOf]
    | error e1 =>
      cases h2 : getOnce t 2 with
      | ok r => simp [getModel, retryGo, h1, h2, attemptsOf]
      | error e2 =>
        cases h3 : getOnce t 3 with
        | ok r => simp [getModel, retryGo, h1, h2, h3, attemptsOf]
        | error e3 => simp [getModel, retryGo, h1, h2, h3, attemptsOf]
  · intro r h1 h2 h3
    obtain ⟨e1, he1⟩ := except_error_of_isOk_false h1
    obtain ⟨e2, he2⟩ := except_error_of_isOk_false h2
    simp [getModel, retryGo, he1, he2, h3, waitExponential]
  · intro e h1 h2 h3
    obtain ⟨e1, he1⟩ := except_error_of_isOk_false h1
    obtain ⟨e2, he2⟩ := except_error_of_isOk_false h2
    simp [getModel, retryGo, he1, he2, h3, waitExponential]

/-- A transport failing with a network exception on the first two attempts
and succeeding on the third. -/
def tFailTwice : Transport := fun n =>
  if n ≤ 2 then .exc "connection reset" else .resp 200 "ok"

/-- A transport answering 500 (a retryable application failure, status
>= 400) on every attempt. -/
def tAlwaysFail : Transport := fun _ => .resp 500 "server error"

/-- C2 witness: both scenarios at concrete transports. -/
theorem claim_c2_witness :
    getModel tFailTwice = .success ⟨200, "ok"⟩ 3 [1, 2]
  ∧ getModel tAlwaysFail = .failure (.scrapeError 500) 3 [1, 2] := by
  exact ⟨(claim_c2 tFailTwice).2.1 ⟨200, "ok"⟩ (by rfl) (by rfl) (by rfl),
    (claim_c2 tAlwaysFail).2.2 (.scrapeError 500) (by rfl) (by rfl) (by rfl)⟩

/-- C5: when the first two attempts fail, the two sleeps taken are
`max(min_wait, min(multiplier * 2^(attempt-1), max_wait))` of the failed
attempt's number — with the call site's `multiplier=1`, `min=1`, `max=8`
they are exactly 1s then 2s. -/
theorem claim_c5 (t : Transport)
    (h1 : (getOnce t 1).isOk = false) (h2 : (getOnce t 2).isOk = false) :
    waitsOf (getModel t)
      = [max 1 (min (1 * 2 ^ (1 - 1)) 8), max 1 (min (1 * 2 ^ (2 - 1)) 8)]
  ∧ waitsOf (getModel t) = [1, 2] := by
  obtain ⟨e1, he1⟩ := except_error_of_isOk_false h1
  obtain ⟨e2, he2⟩ := except_error_of_isOk_false h2
  cases h3 : getOnce t 3 with
  | ok r =>
    constructor <;> simp [getModel, retryGo, he1, he2, h3, waitsOf, waitExponential]
  | error e3 =>
    constructor <;> simp [getModel, retryGo, he1, he2, h3, waitsOf, waitExponential]

/-- C5 witness: the always-failing transport sleeps exactly 1s then 2s. -/
theorem claim_c5_witness :
    waitsOf (getModel tAlwaysFail)
      = [max 1 (min (1 * 2 ^ (1 - 1)) 8), max 1 (min (1 * 2 ^ (2 - 1)) 8)]
  ∧ waitsOf (getModel tAlwaysFail) = [1, 2] := by
  exact claim_c5 tAlwaysFail (by rfl) (by rfl)

/-! ## C3: the provider/url invariant of every adapter's records -/

theorem resolveHref_ne_empty {base href : String}
    (h : strIsEmpty href = false) : resolveHref base href ≠ "" := by
  unfold resolveHref
  by_cases hs : startsWithSlash href = true
  · rw [if_pos hs]
    exact append_ne_empty_of_right ((strIsEmpty_false_iff href).mp h)
  · rw [if_neg hs]
    exact (strIsEmpty_false_iff href).mp h

/-- The invariant of one claim: provider stamped with the display name, url
non-empty. -/
def ProviderUrlOk (name : String) (r : Course) : Prop :=
  r.provider = some name ∧ r.url ≠ ""

theorem kwAnchorCourse_ok {A : KwAdapter} {a : Anchor} {r : Course}
    (h : kwAnchorCourse A a = some r) : ProviderUrlOk A.name r := by
  unfold kwAnchorCourse at h
  by_cases h1 : strIsEmpty a.href = true
  · rw [if_pos h1] at h
    exact Option.noConfusion h
  · rw [if_neg h1] at h
    by_cases h2 : (containsSub (resolveHref A.base a.href) A.base
        && kwWords A.words (resolveHref A.base a.href)) = true
    · rw [if_pos h2] at h
      injection h with h3
      subst h3
      exact ⟨rfl, resolveHref_ne_empty (Bool.eq_false_iff.mpr h1)⟩
    · rw [if_neg h2] at h
      exact Option.noConfusion h

theorem learningGovDetail_ok {fetch : Fetcher} {raw : String} {r : Course}
    (h : learningGovDetail fetch raw = some r) : ProviderUrlOk learningGovName r := by
  unfold learningGovDetail at h
  by_cases h1 : strIsEmpty raw = true
  · rw [if_pos h1] at h
    exact Option.noConfusion h
  · rw [if_neg h1] at h
    by_cases h2 : learningGovKw (resolveHref learningGovBase raw) = true
    · rw [if_pos h2] at h
      cases hf : fetch (resolveHref learningGovBase raw) with
      | error e => rw [hf] at h; exact Option.noConfusion h
      | ok csoup =>
        rw [hf] at h
        injection h with h3
        subst h3
        exact ⟨rfl, resolveHref_ne_empty (Bool.eq_false_iff.mpr h1)⟩
    · rw [if_neg h2] at h
      exact Option.noConfusion h

theorem moodleCourse_ok {base name : String} {box : Anchor} {r : Course}
    (h : moodleCourse base name box = some r) : ProviderUrlOk name r := by
  unfold moodleCourse at h
  by_cases h1 : strIsEmpty box.href = true
  · rw [if_pos h1] at h
    exact Option.noConfusion h
  · rw [if_neg h1] at h
    injection h with h3
    subst h3
    exact ⟨rfl, resolveHref_ne_empty (Bool.eq_false_iff.mpr h1)⟩

theorem kwIterGuarded_ok {A : KwAdapter} {fetch : Fetcher} {cs : List Course}
    (h : kwIterGuarded A fetch = .ok cs) :
    ∀ r ∈ cs, ProviderUrlOk A.name r := by
  unfold kwIterGuarded at h
  cases hf : fetch A.base with
  | error e =>
    rw [hf] at h
    injection h with h2
    subst h2
    intro r hr
    exact absurd hr (List.not_mem_nil r)
  | ok page =>
    rw [hf] at h
    injection h with h2
    subst h2
    intro r hr
    obtain ⟨a, _, ha⟩ := List.mem_filterMap.mp hr
    exact kwAnchorCourse_ok ha

theorem kwIterPlain_ok {A : KwAdapter} {fetch : Fetcher} {cs : List Course}
    (h : kwIterPlain A fetch = .ok cs) :
    ∀ r ∈ cs, ProviderUrlOk A.name r := by
  unfold kwIterPlain at h
  cases hf : fetch A.base with
  | error e =>
    rw [hf] at h
    exact Except.noConfusion h
  | ok page =>
    rw [hf] at h
    injection h with h2
    subst h2
    intro r hr
    obtain ⟨a, _, ha⟩ := List.mem_filterMap.mp hr
    exact kwAnchorCourse_ok ha

theorem learningGovIter_ok {fetch : Fetcher} {cs : List Course}
    (h : learningGovIter fetch = .ok cs) :
    ∀ r ∈ cs, ProviderUrlOk learningGovName r := by
  unfold learningGovIter at h
  cases hf : fetch learningGovBase with
  | error e =>
    rw [hf] at h
    exact Except.noConfusion h
  | ok page =>
    rw [hf] at h
    injection h with h2
    subst h2
    intro r hr
    obtain ⟨raw, _, ha⟩ := List.mem_filterMap.mp hr
    exact learningGovDetail_ok ha

theorem learnEthiopiaStep_inv {fetch : Fetcher}
    {acc : List String × List Course} {a : Anchor}
    (h : ∀ r ∈ acc.2, ProviderUrlOk learnEthiopiaName r) :
    ∀ r ∈ (learnEthiopiaStep fetch acc a).2, ProviderUrlOk learnEthiopiaName r := by
  unfold learnEthiopiaStep
  by_cases h1 : strIsEmpty a.href = true
  · rw [if_pos h1]; exact h
  · rw [if_neg h1]
    by_cases h2 : (!containsSub (resolveHref learnEthiopiaBase a.href) learnEthiopiaBase
        || decide (resolveHref learnEthiopiaBase a.href ∈ acc.1)) = true
    · rw [if_pos h2]; exact h
    · rw [if_neg h2]
      by_cases h3 : learnEthiopiaKw (resolveHref learnEthiopiaBase a.href) = true
      · rw [if_pos h3]
        intro r hr
        simp only [List.mem_append, List.mem_singleton] at hr
        rcases hr with hr | hr
        · exact h r hr
        · subst hr
          exact ⟨rfl, resolveHref_ne_empty (Bool.eq_false_iff.mpr h1)⟩
      · rw [if_neg h3]; exact h

theorem learnEthiopiaFold_inv (fetch : Fetcher) :
    ∀ (anchors : List Anchor) (acc : List String × List Course),
    (∀ r ∈ acc.2, ProviderUrlOk learnEthiopiaName r) →
    ∀ r ∈ (anchors.foldl (learnEthiopiaStep fetch) acc).2,
      ProviderUrlOk learnEthiopiaName r := by
  intro anchors
  induction anchors with
  | nil => intro acc h; exact h
  | cons a as ih =>
    intro acc h
    simp only [List.foldl_cons]
    exact ih _ (learnEthiopiaStep_inv h)

theorem learnEthiopiaIter_ok {fetch : Fetcher} {cs : List Course}
    (h : learnEthiopiaIter fetch = .ok cs) :
    ∀ r ∈ cs, ProviderUrlOk learnEthiopiaName r := by
  unfold learnEthiopiaIter at h
  injection h with h2
  subst h2
  have hstep : ∀ (urls : List String) (acc : List String × List Course),
      (∀ r ∈ acc.2, ProviderUrlOk learnEthiopiaName r) →
      ∀ r ∈ (urls.foldl
        (fun acc url =>
          match fetch url with
          | .error _ => acc
          | .ok page => page.anchors.foldl (learnEthiopiaStep fetch) acc) acc).2,
        ProviderUrlOk learnEthiopiaName r := by
    intro urls
    induction urls with
    | nil => intro acc h; exact h
    | cons u us ih =>
      intro acc hacc
      simp only [List.foldl_cons]
      cases hf : fetch u with
      | error e => exact ih _ hacc
      | ok page =>
        exact ih _ (learnEthiopiaFold_inv fetch page.anchors acc hacc)
  apply hstep
  intro r hr
  exact absurd hr (List.not_mem_nil r)

theorem moodleIter_ok {base name : String} {fetch : Fetcher} {cs : List Course}
    (h : moodleIter base name fetch = .ok cs) :
    ∀ r ∈ cs, ProviderUrlOk name r := by
  unfold moodleIter at h
  injection h with h2
  subst h2
  have hstep : ∀ (urls : List String) (out : List Course),
      (∀ r ∈ out, ProviderUrlOk name r) →
      ∀ r ∈ urls.foldl
        (fun out url =>
          match fetch url with
          | .error _ => out
          | .ok page => out ++ page.courseBoxes.filterMap (moodleCourse base name))
        out,
        ProviderUrlOk name r := by
    intro urls
    induction urls with
    | nil => intro out h; exact h
    | cons u us ih =>
      intro out hout
      simp only [List.foldl_cons]
      cases hf : fetch u with
      | error e => exact ih _ hout
      | ok page =>
        apply ih
        intro r hr
        rcases List.mem_append.mp hr with hr | hr
        · exact hout r hr
        · obtain ⟨box, _, hb⟩ := List.mem_filterMap.mp hr
          exact moodleCourse_ok hb
  apply hstep
  intro r hr
  exact absurd hr (List.not_mem_nil r)

/-- C3: every record any registered adapter's `iter_courses` yields has its
`provider` equal to that adapter's `display_name` exactly, and a non-empty
`url`. -/
theorem claim_c3 (a : AdapterDef) (ha : a ∈ REGISTRY) (fetch : Fetcher)
    (cs : List Course) (r : Course) (hiter : a.iter fetch = .ok cs)
    (hr : r ∈ cs) : r.provider = some a.displayName ∧ r.url ≠ "" := by
  simp only [REGISTRY, List.mem_cons, List.not_mem_nil, or_false] at ha
  rcases ha with rfl | rfl | rfl | rfl | rfl | rfl | rfl | rfl | rfl | rfl | rfl |
    rfl | rfl | rfl | rfl | rfl | rfl | rfl | rfl | rfl | rfl | rfl
  · exact learningGovIter_ok hiter r hr
  · exact learnEthiopiaIter_ok hiter r hr
  · exact kwIterPlain_ok hiter r hr
  · exact kwIterPlain_ok hiter r hr
  · exact kwIterGuarded_ok hiter r hr
  · exact kwIterGuarded_ok hiter r hr
  · exact kwIterPlain_ok hiter r hr
  · exact kwIterPlain_ok hiter r hr
  · exact moodleIter_ok hiter r hr
  · exact kwIterGuarded_ok hiter r hr
  · exact kwIterGuarded_ok hiter r hr
  · exact kwIterGuarded_ok hiter r hr
  · exact kwIterGuarded_ok hiter r hr
  · exact kwIterGuarded_ok hiter r hr
  · exact kwIterGuarded_ok hiter r hr
  · exact kwIterGuarded_ok hiter r hr
  · exact kwIterGuarded_ok hiter r hr
  all_goals
    injection hiter with h2
  all_goals
    subst h2
  all_goals
    exact absurd hr (List.not_mem_nil r)

/-- A homepage for the EDUHUB adapter with one course anchor. -/
def eduHubPage : Html := { anchors := [{ href := "/course/intro", text := "Intro" }] }

/-- A fetcher serving only the EDUHUB base page. -/
def eduHubFetch : Fetcher := fun u =>
  if u = "https://eduhubplc.com" then .ok eduHubPage else .error "offline"

/-- The record the EDUHUB adapter extracts from `eduHubPage`. -/
def eduHubRecord : Course :=
  { course_id := "https://eduhubplc.com/course/intro", course_title := "Intro",
    url := "https://eduhubplc.com/course/intro",
    provider := some "EDUHUB Technology Solutions" }

/-- C3 witness: a concrete registered adapter, fetcher and record. -/
theorem claim_c3_witness :
    adapterEduHub ∈ REGISTRY
  ∧ adapterEduHub.iter eduHubFetch = .ok [eduHubRecord]
  ∧ eduHubRecord ∈ [eduHubRecord]
  ∧ (eduHubRecord.provider = some adapterEduHub.displayName ∧ eduHubRecord.url ≠ "") := by
  refine ⟨by simp [REGISTRY], by rfl, List.mem_singleton.mpr rfl, ?_⟩
  exact claim_c3 adapterEduHub (by simp [REGISTRY]) eduHubFetch [eduHubRecord]
    eduHubRecord (by rfl) (List.mem_singleton.mpr rfl)

/-! ## C4: fatal CLI invocations -/

/-- C4: every fatal invocation — `--site` together with `--all`, neither of
them, or `--site` with an unknown key — ends in the `SystemExit` outcome
(non-zero exit with a message, no output file written), and the outcome is
the same for every transport, in particular for a fully offline one: no
network response is consulted before the exit. -/
theorem claim_c4 (args : Args) (h : fatalArgs REGISTRY args = true) (fetch : Fetcher) :
    (mainRun REGISTRY args fetch).isFatal = true
  ∧ mainRun REGISTRY args fetch = mainRun REGISTRY args offlineFetch := by
  obtain ⟨site, all, out, ls⟩ := args
  cases ls with
  | true => simp [fatalArgs] at h
  | false =>
    cases site with
    | none =>
      cases all with
      | true => simp [fatalArgs, siteTruthy] at h
      | false => exact ⟨rfl, rfl⟩
    | some k =>
      by_cases hk : strIsEmpty k = true
      · cases all with
        | true => simp [fatalArgs, siteTruthy, hk] at h
        | false =>
          refine ⟨?_, ?_⟩ <;> simp [mainRun, siteTruthy, hk, MainOutcome.isFatal]
      · have hk' : strIsEmpty k = false := Bool.eq_false_iff.mpr hk
        cases all with
        | true =>
          refine ⟨?_, ?_⟩ <;> simp [mainRun, siteTruthy, hk', MainOutcome.isFatal]
        | false =>
          have hl : lookupAdapter k REGISTRY = none := by
            simp [fatalArgs, siteTruthy, hk', Option.isNone_iff_eq_none] at h
            exact h
          refine ⟨?_, ?_⟩ <;>
            simp [mainRun, run_one, siteTruthy, hk', hl, MainOutcome.isFatal]

/-- C4 witness: `--site nosuch` (with no `--all`) is fatal under both an
ok-everything transport and the offline transport, with identical outcome. -/
theorem claim_c4_witness :
    fatalArgs REGISTRY { site := some "nosuch" } = true
  ∧ (mainRun REGISTRY { site := some "nosuch" } (fun _ => .ok {})).isFatal = true
  ∧ mainRun REGISTRY { site := some "nosuch" } (fun _ => .ok {})
      = mainRun REGISTRY { site := some "nosuch" } offlineFetch := by
  have h := claim_c4 { site := some "nosuch" } (by rfl) (fun _ => .ok {})
  exact ⟨by rfl, h.1, h.2⟩

/-! ## C10: set-collapse and sorted order in `LearningGovAdapter` -/

theorem filterMap_map_sublist {α β : Type} (l : List α) (f : α → Option β)
    (g : β → α) (h : ∀ x ∈ l, ∀ b, f x = some b → g b = x) :
    ((l.filterMap f).map g).Sublist l := by
  induction l with
  | nil => simp
  | cons x xs ih =>
    rw [List.filterMap_cons]
    cases hf : f x with
    | none =>
      exact (ih fun y hy => h y (List.mem_cons_of_mem x hy)).cons x
    | some b =>
      rw [List.map_cons, h x (List.mem_cons_self x xs) b hf]
      exact (ih fun y hy => h y (List.mem_cons_of_mem x hy)).cons₂ x

theorem learningGovDetail_id {fetch : Fetcher} {raw : String} {r : Course}
    (habs : startsWithSlash raw = false)
    (h : learningGovDetail fetch raw = some r) : r.course_id = raw := by
  unfold learningGovDetail at h
  by_cases h1 : strIsEmpty raw = true
  · rw [if_pos h1] at h
    exact Option.noConfusion h
  · rw [if_neg h1] at h
    have hres : resolveHref learningGovBase raw = raw := by
      unfold resolveHref
      rw [if_neg (by simp [habs])]
    rw [hres] at h
    by_cases h2 : learningGovKw raw = true
    · rw [if_pos h2] at h
      cases hf : fetch raw with
      | error e => rw [hf] at h; exact Option.noConfusion h
      | ok csoup =>
        rw [hf] at h
        injection h with h3
        subst h3
        rfl
    · rw [if_neg h2] at h
      exact Option.noConfusion h

/-- C10: the homepage's raw hrefs are collapsed through a set, so the run
yields at most one record per distinct raw href — the output is no longer
than the deduplicated href list — and the candidates are processed in
ascending code-point order of the raw hrefs, so when no href needs
resolution (none starts with `/`) the records' ids are strictly ascending
in that order. -/
theorem claim_c10 (fetch : Fetcher) (page : Html) (cs : List Course)
    (hbase : fetch learningGovBase = .ok page)
    (hrun : learningGovIter fetch = .ok cs) :
    cs.length ≤ ((page.anchors.map Anchor.href).dedup).length
  ∧ ((∀ a ∈ page.anchors, startsWithSlash a.href = false) →
      List.Pairwise
        (fun r₁ r₂ : Course => strle r₁.course_id r₂.course_id ∧
          r₁.course_id ≠ r₂.course_id) cs) := by
  unfold learningGovIter at hrun
  rw [hbase] at hrun
  injection hrun with h2
  subst h2
  set hrefs := (page.anchors.map Anchor.href).dedup with hhrefs
  set sorted := hrefs.insertionSort strle with hsorted
  constructor
  · calc (sorted.filterMap (learningGovDetail fetch)).length
        ≤ sorted.length := List.length_filterMap_le _ _
      _ = hrefs.length := (List.perm_insertionSort strle hrefs).length_eq
  · intro habs
    have habs' : ∀ x ∈ sorted, startsWithSlash x = false := by
      intro x hx
      have hx2 : x ∈ hrefs := (List.perm_insertionSort strle hrefs).mem_iff.mp hx
      have hx3 : x ∈ page.anchors.map Anchor.href := List.mem_dedup.mp hx2
      obtain ⟨a, ha, rfl⟩ := List.mem_map.mp hx3
      exact habs a ha
    have hsub : ((sorted.filterMap (learningGovDetail fetch)).map
        Course.course_id).Sublist sorted :=
      filterMap_map_sublist _ _ _
        (fun x hx b hb => learningGovDetail_id (habs' x hx) hb)
    have hsorted2 : List.Pairwise strle sorted :=
      List.sorted_insertionSort strle hrefs
    have hnodup : sorted.Nodup :=
      ((List.perm_insertionSort strle hrefs).symm).nodup (List.nodup_dedup _)
    have hpair : List.Pairwise (fun a b : String => strle a b ∧ a ≠ b) sorted :=
      hsorted2.and hnodup
    have hmap := hpair.sublist hsub
    exact List.pairwise_map.mp hmap

/-- A homepage for the LearningGov adapter: three anchors, one href
duplicated, all absolute, listed out of order. -/
def lgPage : Html :=
  { anchors :=
      [{ href := "https://learning.gov.et/course/b", text := "" },
       { href := "https://learning.gov.et/course/a", text := "" },
       { href := "https://learning.gov.et/course/b", text := "" }] }

/-- A detail page with a heading. -/
def lgDetailPage : Html := { heading := some "T" }

/-- A fetcher serving the LearningGov homepage and the detail pages. -/
def lgFetch : Fetcher := fun u =>
  if u = learningGovBase then .ok lgPage else .ok lgDetailPage

/-- The records the LearningGov adapter extracts from `lgPage`: one per
distinct href, in ascending href order. -/
def lgRecordA : Course :=
  { course_id := "https://learning.gov.et/course/a", course_title := "T",
    url := "https://learning.gov.et/course/a", provider := some learningGovName }

def lgRecordB : Course :=
  { course_id := "https://learning.gov.et/course/b", course_title := "T",
    url := "https://learning.gov.et/course/b", provider := some learningGovName }

/-- C10 witness: on the concrete duplicated, unordered homepage the run
yields the two distinct records in ascending id order, within the dedup
bound. -/
theorem claim_c10_witness :
    learningGovIter lgFetch = .ok [lgRecordA, lgRecordB]
  ∧ ([lgRecordA, lgRecordB].length
      ≤ ((lgPage.anchors.map Anchor.href).dedup).length
    ∧ List.Pairwise
        (fun r₁ r₂ : Course => strle r₁.course_id r₂.course_id ∧
          r₁.course_id ≠ r₂.course_id) [lgRecordA, lgRecordB]) := by
  have hrun : learningGovIter lgFetch = .ok [lgRecordA, lgRecordB] := by rfl
  have h := claim_c10 lgFetch lgPage [lgRecordA, lgRecordB] (by rfl) hrun
  exact ⟨hrun, h.1, h.2 (by decide)⟩

/-! ## C8: the Sink's format and round trip -/

/-- C8: `write_csv` emits one header row with exactly the fourteen columns
in order, then one data row per record in input order with every `None`
field rendered as the empty string; re-reading the written file (with the
csv reader of the same dialect) yields exactly those logical rows, field
values identical. -/
theorem claim_c8 (rows : List Course) :
    (parseRows (writeCsvContent rows)).map
        (fun rs => rs.map fun row => row.map String.mk)
      = some
          ((["course_id", "course_title", "url", "is_paid", "price",
             "num_subscribers", "num_reviews", "num_lectures", "level",
             "content_duration", "published_timestamp", "subject", "provider",
             "language"] : List String)
            :: rows.map renderCourse)
  ∧ (∀ i t u : String,
      renderCourse { course_id := i, course_title := t, url := u }
        = [i, t, u, "", "", "", "", "", "", "", "", "", "", ""]) := by
  constructor
  · have hne : ∀ r ∈ rowsToChars (FIELDS :: rows.map renderCourse), r ≠ [] := by
      intro r hr
      obtain ⟨row, hrow, rfl⟩ := List.mem_map.mp hr
      have hrow_ne : row ≠ [] := by
        rcases List.mem_cons.mp hrow with rfl | hrow2
        · simp [FIELDS]
        · obtain ⟨c, _, rfl⟩ := List.mem_map.mp hrow2
          simp [renderCourse]
      simpa using hrow_ne
    rw [show writeCsvContent rows
        = encodeFile (rowsToChars (FIELDS :: rows.map renderCourse)) from rfl]
    rw [parseRows_encodeFile _ hne]
    simp only [Option.map_some']
    congr 1
    rw [show (rowsToChars (FIELDS :: rows.map renderCourse))
        = (FIELDS :: rows.map renderCourse).map (fun row => row.map String.data)
        from rfl]
    rw [List.map_map]
    have hcomp : ((fun row : List (List Char) => row.map String.mk) ∘
        (fun row : List String => row.map String.data)) = id := by
      funext row
      simp only [Function.comp_apply, List.map_map]
      have hid : (String.mk ∘ String.data) = id := funext string_mk_data
      rw [hid, List.map_id]
      rfl
    rw [hcomp, List.map_id]
    rfl
  · intro i t u
    rfl

end Scrapper
